import Mathlib

/-
Shallow embedding of the intel-speech-to-text repository
(key_listener.py, speech_to_text.py, detect_keyboard.py, config.example.py).
Pure Lean definitions mirror the Python functions; the event loop of
key_listener.main is modelled as a step function over an explicit state,
emitting a trace of external actions (process spawn or terminate or wait,
subprocess invocations).
-/

namespace STT

/-- Whitespace characters recognised by Python str.strip with no argument. -/
def isPyWs (c : Char) : Bool :=
  c = ' ' || c = '\t' || c = '\n' || c = '\r' || c = Char.ofNat 11 || c = Char.ofNat 12

/-- Python str.strip on a list of characters: drop leading and trailing whitespace. -/
def stripList (l : List Char) : List Char :=
  ((l.dropWhile isPyWs).reverse.dropWhile isPyWs).reverse

/-- Python str.strip on a string, as used by both pipelines. -/
def pyStrip (s : String) : String :=
  ⟨stripList s.data⟩

/-- A string consisting only of whitespace (the empty string included). -/
def wsOnlyB (s : String) : Bool :=
  s.data.all isPyWs

/-- A character list with no leading and no trailing whitespace. -/
def isStripped (l : List Char) : Bool :=
  (match l.head? with
   | none => true
   | some c => !isPyWs c) &&
  (match l.getLast? with
   | none => true
   | some c => !isPyWs c)

/-- Configuration surface of config.example.py used by the listener. -/
structure Config where
  targetUser : String := "micha"
  audioFile : String := "/tmp/recorded_audio.wav"
  sampleFormat : String := "S16_LE"
  sampleRateHz : Nat := 16000
  channels : Nat := 1
  keyDelay : Nat := 12
  trigger : String := "KEY_RIGHTCTRL"
  devicePath : String := "/dev/input/event4"
deriving DecidableEq, Repr

/-- Argument vector of the arecord capture subprocess spawned in
key_listener.main (lines 339-355): fixed output path from the config. -/
def arecordArgv (cfg : Config) : List String :=
  ["sudo", "-u", cfg.targetUser, "-E", "arecord",
   "-f", cfg.sampleFormat,
   "-r", toString cfg.sampleRateHz,
   "-c", toString cfg.channels,
   cfg.audioFile]

instance {α β : Type} [DecidableEq α] [DecidableEq β] : DecidableEq (Except α β) := fun a b =>
  match a, b with
  | Except.error x, Except.error y =>
    if h : x = y then isTrue (by rw [h]) else isFalse (by intro hc; cases hc; exact h rfl)
  | Except.error _, Except.ok _ => isFalse (by intro hc; cases hc)
  | Except.ok _, Except.error _ => isFalse (by intro hc; cases hc)
  | Except.ok x, Except.ok y =>
    if h : x = y then isTrue (by rw [h]) else isFalse (by intro hc; cases hc; exact h rfl)

/-- Environment of one transcribe_and_type call: the outcome of
model.transcribe (error = the raised exception's message), and the state of
the external typing facilities probed by the function. -/
structure TtEnv where
  transcription : Except String String := Except.ok ""
  ydotoolFound : Bool := true
  socketExists : Bool := true
  runOk : Bool := true
deriving DecidableEq, Repr

/-- Log events emitted by transcribe_and_type in key_listener.py. -/
inductive TtLog where
  | noText
  | recognized
  | noYdotool
  | socketMissing
  | typedOk
  | ydotoolFailed
deriving DecidableEq, Repr

/-- Result of one transcribe_and_type call: whether an exception escaped the
function, the log lines, the subprocess invocations made, and the text
successfully typed. -/
structure TtResult where
  raised : Bool
  logs : List TtLog
  calls : List (List String)
  typed : List String
deriving DecidableEq, Repr

/-- key_listener.transcribe_and_type (lines 225-264): transcribe, strip the
text, return on empty text; check shutil.which for ydotool, then the socket
path; only then run ydotool type with the configured key delay. A
CalledProcessError from the run is caught and logged inside the function; a
transcription error escapes to the caller. -/
def transcribe_and_type (cfg : Config) (env : TtEnv) : TtResult :=
  match env.transcription with
  | Except.error _ => ⟨true, [], [], []⟩
  | Except.ok raw =>
    let text := pyStrip raw
    if text = "" then ⟨false, [TtLog.noText], [], []⟩
    else if env.ydotoolFound = false then ⟨false, [TtLog.recognized, TtLog.noYdotool], [], []⟩
    else if env.socketExists = false then ⟨false, [TtLog.recognized, TtLog.socketMissing], [], []⟩
    else
      let argv := ["ydotool", "type", "--key-delay", toString cfg.keyDelay, text ++ " "]
      if env.runOk then ⟨false, [TtLog.recognized, TtLog.typedOk], [argv], [text ++ " "]⟩
      else ⟨false, [TtLog.recognized, TtLog.ydotoolFailed], [argv], []⟩

/-- Event type field of an evdev input event (EV_KEY versus everything else). -/
inductive EvType where
  | key
  | other
deriving DecidableEq, Repr

/-- One input event as consumed by the read loop, together with the outcome
the environment would give to the actions the loop takes on it: spawnPid is
the pid Popen would return on a key-down (none models FileNotFoundError),
tt is the environment of the transcribe_and_type call made on a key-up. -/
structure Event where
  etype : EvType := EvType.key
  keycode : String := "KEY_RIGHTCTRL"
  keystate : Nat := 1
  spawnPid : Option Nat := some 1
  tt : TtEnv := {}
deriving DecidableEq, Repr

/-- External actions performed by the event loop, in order. -/
inductive Action where
  | spawn (pid : Nat) (argv : List String)
  | terminate (pid : Nat)
  | wait (pid : Nat) (timeoutMs : Option Nat)
  | kill (pid : Nat)
  | pipelineRun (raised : Bool)
  | logSpawnFail
deriving DecidableEq, Repr

/-- State of key_listener.main's event loop: the recording_process slot, the
set of spawned-and-not-yet-terminated capture processes, the action trace,
the text typed so far, and the number of spawns performed. -/
structure LoopState where
  recording : Option Nat := none
  live : List Nat := []
  trace : List Action := []
  typed : List String := []
  spawns : Nat := 0
deriving DecidableEq, Repr

/-- Outcome of handling one event: continue the loop, or leave it with an
exit code (SystemExit). -/
inductive StepResult where
  | cont (s : LoopState)
  | fatal (s : LoopState) (code : Nat)
deriving DecidableEq, Repr

/-- Body of the for-event loop in key_listener.main (lines 321-373):
skip non-EV_KEY events, skip repeats (keystate 2), skip other keycodes;
on key-down with no active recording spawn arecord (FileNotFoundError logs
and raises SystemExit 1); on key-up with an active recording terminate it,
wait with no timeout, then run transcribe_and_type in a try-except-finally
that always clears the recording slot. -/
def step (cfg : Config) (s : LoopState) (e : Event) : StepResult :=
  if e.etype ≠ EvType.key then StepResult.cont s
  else if e.keystate = 2 then StepResult.cont s
  else if e.keycode ≠ cfg.trigger then StepResult.cont s
  else if e.keystate = 1 ∧ s.recording = none then
    match e.spawnPid with
    | some pid =>
      StepResult.cont
        { s with recording := some pid,
                 live := s.live ++ [pid],
                 trace := s.trace ++ [Action.spawn pid (arecordArgv cfg)],
                 spawns := s.spawns + 1 }
    | none =>
      StepResult.fatal { s with trace := s.trace ++ [Action.logSpawnFail] } 1
  else if e.keystate = 0 then
    match s.recording with
    | some p =>
      let r := transcribe_and_type cfg e.tt
      StepResult.cont
        { s with recording := none,
                 live := s.live.erase p,
                 trace := s.trace ++
                   [Action.terminate p, Action.wait p none, Action.pipelineRun r.raised],
                 typed := s.typed ++ r.typed }
    | none => StepResult.cont s
  else StepResult.cont s

/-- Finally block of key_listener.main (lines 379-382): if a recording is
still active, terminate it and wait with a one second timeout. -/
def finallyStop (s : LoopState) : LoopState :=
  match s.recording with
  | none => s
  | some p =>
    { s with recording := none,
             live := s.live.erase p,
             trace := s.trace ++ [Action.terminate p, Action.wait p (some 1000)] }

/-- Final state and exit code of one run of the event loop. -/
structure RunResult where
  final : LoopState
  exitCode : Option Nat
deriving DecidableEq, Repr

/-- Run the event loop from a state over a finite event list; the finally
block runs on normal completion and on SystemExit alike. -/
def runAux (cfg : Config) (s : LoopState) : List Event → RunResult
  | [] => ⟨finallyStop s, none⟩
  | e :: rest =>
    match step cfg s e with
    | StepResult.cont s' => runAux cfg s' rest
    | StepResult.fatal s' c => ⟨finallyStop s', some c⟩

/-- Run the event loop from the initial state (no recording). -/
def runLoop (cfg : Config) (evs : List Event) : RunResult :=
  runAux cfg {} evs

/-- Every state the loop passes through, the post-finally state included. -/
def statesAux (cfg : Config) (s : LoopState) : List Event → List LoopState
  | [] => [s, finallyStop s]
  | e :: rest =>
    s :: (match step cfg s e with
          | StepResult.cont s' => statesAux cfg s' rest
          | StepResult.fatal s' _ => [s', finallyStop s'])

/-- One /dev/input/eventN candidate as the resolver sees it: its event
number, whether opening it succeeds, whether its capability map has an
EV_KEY entry, the key codes of that entry, and its reported name. -/
structure RawDevice where
  num : Nat
  openable : Bool
  hasEvKey : Bool
  keys : List Nat
  name : String
deriving DecidableEq, Repr

/-- Boolean test that one character list starts with another. -/
def startsWithChars : List Char → List Char → Bool
  | [], _ => true
  | _ :: _, [] => false
  | a :: ps, b :: ls => a = b && startsWithChars ps ls

/-- Boolean substring test on character lists (Python's in operator). -/
def hasSub (p : List Char) : List Char → Bool
  | [] => p.isEmpty
  | b :: t => startsWithChars p (b :: t) || hasSub p t

/-- Name heuristic of find_keyboard_device (line 194): the lowercased device
name contains keyboard, key or kbd. -/
def nameMatches (name : String) : Bool :=
  let lower := name.data.map Char.toLower
  hasSub "keyboard".data lower || hasSub "key".data lower || hasSub "kbd".data lower

/-- Ordering of candidate devices by event number (line 149's sort key). -/
def devLe (a b : RawDevice) : Prop := a.num ≤ b.num

instance : DecidableRel devLe := fun a b => Nat.decLe a.num b.num

instance : IsTotal RawDevice devLe := ⟨fun a b => Nat.le_total a.num b.num⟩

instance : IsTrans RawDevice devLe := ⟨fun _ _ _ h h' => Nat.le_trans h h'⟩

/-- First-tier test: device opens, has EV_KEY capabilities, and its key set
contains the trigger's event code. -/
def capMatch (code : Nat) (d : RawDevice) : Bool :=
  d.openable && d.hasEvKey && d.keys.contains code

/-- Second-tier test: device opens and its name looks like a keyboard. -/
def nameTier (d : RawDevice) : Bool :=
  d.openable && nameMatches d.name

/-- key_listener.find_keyboard_device (lines 134-207): sort candidates by
event number ascending; give up if the trigger keycode is unknown to evdev;
return the first openable device whose EV_KEY capabilities contain the
trigger code, else the first openable device with a keyboard-like name,
else none. Devices that fail to open are skipped in both passes. -/
def find_keyboard_device (table : String → Option Nat) (trigger : String)
    (devs : List RawDevice) : Option RawDevice :=
  let sorted := List.insertionSort devLe devs
  match table trigger with
  | none => none
  | some code =>
    match sorted.find? (capMatch code) with
    | some d => some d
    | none => sorted.find? nameTier

/-- Path string of a resolved device. -/
def devPathOf (d : RawDevice) : String :=
  "/dev/input/event" ++ toString d.num

/-- Device selection in key_listener.main (lines 285-304): dynamic detection
first; on failure fall back to the configured DEVICE_PATH when it exists on
the filesystem, else SystemExit 1. -/
def resolveDevice (table : String → Option Nat) (trigger : String)
    (devs : List RawDevice) (configuredPath : String) (configuredExists : Bool) :
    Except Nat String :=
  match find_keyboard_device table trigger devs with
  | some d => Except.ok (devPathOf d)
  | none =>
    if configuredExists then Except.ok configuredPath else Except.error 1

/-- The audio artifact file as the filesystem presents it. -/
structure AudioFile where
  present : Bool
  sizeBytes : Nat
deriving DecidableEq, Repr

/-- speech_to_text.load_audio's guard (lines 65-69): SystemExit 1 when the
file does not exist; an existing file of any size is loaded. -/
def load_audio (f : AudioFile) : Except Nat AudioFile :=
  if f.present then Except.ok f else Except.error 1

/-- speech_to_text.transcribe (lines 104-108): strip each raw segment text
and yield it only when non-empty. -/
def stt_transcribe (rawSegs : List String) : List String :=
  rawSegs.filterMap (fun r =>
    let t := pyStrip r
    if t = "" then none else some t)

/-- Argument vector speech_to_text.type_text passes to subprocess.run
(line 125): no key-delay argument, one trailing space on the text. -/
def stt_type_text_argv (text : String) : List String :=
  ["ydotool", "type", text ++ " "]

/-- The typing loop of speech_to_text.main (lines 147-149) with type_text
inlined (lines 111-126): for each segment, check ydotool is resolvable and
the socket exists (SystemExit 1 otherwise), then invoke ydotool. Returns
the invocations made and the exit code, if any. -/
def stt_typeLoop (found sockEx : Bool) : List String → List (List String) × Option Nat
  | [] => ([], none)
  | t :: rest =>
    if found = false then ([], some 1)
    else if sockEx = false then ([], some 1)
    else
      let r := stt_typeLoop found sockEx rest
      (stt_type_text_argv t :: r.1, r.2)

/-- Observable outcome of one speech_to_text.main run. -/
structure SttOutcome where
  transcriptionInvoked : Bool
  segments : List String
  calls : List (List String)
  exitCode : Option Nat
deriving DecidableEq, Repr

/-- speech_to_text.main (lines 129-154): load_audio exits 1 on a missing
file before the model is invoked; otherwise the model is invoked on the
loaded audio and each yielded segment is typed. -/
def stt_main (f : AudioFile) (rawSegs : List String) (found sockEx : Bool) : SttOutcome :=
  match load_audio f with
  | Except.error c => ⟨false, [], [], some c⟩
  | Except.ok _ =>
    let segs := stt_transcribe rawSegs
    let r := stt_typeLoop found sockEx segs
    ⟨true, segs, r.1, r.2⟩

/-- Startup steps of key_listener.main in source order (lines 267-316). -/
inductive StartupAction where
  | setupLogging
  | logNotRoot
  | resolveUser
  | buildEnv
  | mkdirAudioDir
  | loadModel
  | resolveSocket
  | detectDevice
  | openDevice
deriving DecidableEq, Repr

/-- Startup prefix of key_listener.main (lines 267-316): configure logging,
then exit 1 unless the effective uid is 0; only afterwards resolve the user,
build the environment, create the audio directory, load the model, resolve
the socket, and detect and open the input device. -/
def main_startup (euid : Nat) : List StartupAction × Option Nat :=
  if euid ≠ 0 then ([StartupAction.setupLogging, StartupAction.logNotRoot], some 1)
  else
    ([StartupAction.setupLogging, StartupAction.resolveUser, StartupAction.buildEnv,
      StartupAction.mkdirAudioDir, StartupAction.loadModel, StartupAction.resolveSocket,
      StartupAction.detectDevice, StartupAction.openDevice], none)

theorem head?_dropWhile_not {α : Type} (p : α → Bool) :
    ∀ (l : List α) (c : α), (l.dropWhile p).head? = some c → p c = false := by
  intro l
  induction l with
  | nil => intro c h; simp [List.dropWhile] at h
  | cons a t ih =>
    intro c h
    by_cases hp : p a = true
    · rw [List.dropWhile_cons, if_pos hp] at h
      exact ih c h
    · rw [List.dropWhile_cons, if_neg hp] at h
      simp at h
      simp at hp
      rw [← h]
      exact hp

theorem getLast?_dropWhile {α : Type} (p : α → Bool) :
    ∀ l : List α, l.dropWhile p ≠ [] → (l.dropWhile p).getLast? = l.getLast? := by
  intro l
  induction l with
  | nil => intro h; simp [List.dropWhile] at h
  | cons a t ih =>
    intro h
    by_cases hp : p a = true
    · rw [List.dropWhile_cons, if_pos hp] at h ⊢
      have ht : t ≠ [] := by
        intro he
        rw [he] at h
        simp [List.dropWhile] at h
      rw [ih h]
      cases t with
      | nil => exact absurd rfl ht
      | cons b t' => rw [List.getLast?_cons_cons]
    · rw [List.dropWhile_cons, if_neg hp]

theorem dropWhile_eq_nil_of_all {α : Type} (p : α → Bool) :
    ∀ l : List α, l.all p = true → l.dropWhile p = [] := by
  intro l
  induction l with
  | nil => intro _; rfl
  | cons a t ih =>
    intro h
    simp only [List.all_cons, Bool.and_eq_true] at h
    rw [List.dropWhile_cons, if_pos h.1]
    exact ih h.2

theorem stripList_all_ws (l : List Char) (h : l.all isPyWs = true) : stripList l = [] := by
  unfold stripList
  rw [dropWhile_eq_nil_of_all _ l h]
  rfl

theorem pyStrip_eq_empty_of_wsOnly (s : String) (h : wsOnlyB s = true) : pyStrip s = "" := by
  unfold pyStrip
  rw [stripList_all_ws s.data h]

theorem isStripped_stripList (l : List Char) : isStripped (stripList l) = true := by
  unfold isStripped stripList
  rw [List.head?_reverse, List.getLast?_reverse]
  cases hhd : ((l.dropWhile isPyWs).reverse.dropWhile isPyWs).head? with
  | none =>
    have hnil : (l.dropWhile isPyWs).reverse.dropWhile isPyWs = [] :=
      List.head?_eq_none_iff.mp hhd
    rw [hnil]
    rfl
  | some c =>
    have hc : isPyWs c = false := head?_dropWhile_not isPyWs _ c hhd
    have hne : (l.dropWhile isPyWs).reverse.dropWhile isPyWs ≠ [] := by
      intro he
      rw [he] at hhd
      simp at hhd
    rw [getLast?_dropWhile isPyWs _ hne, List.getLast?_reverse]
    cases hhd2 : (l.dropWhile isPyWs).head? with
    | none =>
      have : l.dropWhile isPyWs = [] := List.head?_eq_none_iff.mp hhd2
      rw [this] at hne
      simp [List.dropWhile] at hne
    | some d =>
      have hd : isPyWs d = false := head?_dropWhile_not isPyWs l d hhd2
      simp [hc, hd]

theorem pyStrip_isStripped (s : String) : isStripped (pyStrip s).data = true :=
  isStripped_stripList s.data

/-- The recording slot and the set of live capture processes agree: the live
processes are exactly the content of the slot. -/
def Inv (s : LoopState) : Prop := s.live = s.recording.toList

/-- State carried by a step outcome, the exit code dropped. -/
def stepState : StepResult → LoopState
  | StepResult.cont s => s
  | StepResult.fatal s _ => s

theorem inv_step (cfg : Config) (s : LoopState) (e : Event) (h : Inv s) :
    Inv (stepState (step cfg s e)) := by
  unfold step
  split_ifs with h1 h2 h3 h4 h5
  · exact h
  · exact h
  · exact h
  · cases hsp : e.spawnPid with
    | some pid =>
      have hlive : s.live = [] := by rw [h, h4.2]; rfl
      simp [stepState, Inv, hlive]
    | none => simpa [stepState, Inv] using h
  · cases hr : s.recording with
    | some p =>
      have hlive : s.live = [p] := by rw [h, hr]; rfl
      simp [stepState, Inv, hlive]
    | none => simpa [stepState] using h
  · exact h

theorem inv_finally (s : LoopState) (h : Inv s) : Inv (finallyStop s) := by
  unfold finallyStop
  cases hr : s.recording with
  | none => exact h
  | some p =>
    have hlive : s.live = [p] := by rw [h, hr]; rfl
    simp [Inv, hlive]

theorem inv_statesAux (cfg : Config) :
    ∀ (evs : List Event) (s : LoopState), Inv s → ∀ st ∈ statesAux cfg s evs, Inv st := by
  intro evs
  induction evs with
  | nil =>
    intro s h st hst
    simp [statesAux] at hst
    rcases hst with rfl | rfl
    · exact h
    · exact inv_finally s h
  | cons e rest ih =>
    intro s h st hst
    have hrepr : statesAux cfg s (e :: rest) =
        s :: (match step cfg s e with
              | StepResult.cont s' => statesAux cfg s' rest
              | StepResult.fatal s' _ => [s', finallyStop s']) := rfl
    rw [hrepr] at hst
    rcases List.mem_cons.mp hst with rfl | hst'
    · exact h
    · cases hstep : step cfg s e with
      | cont s' =>
        rw [hstep] at hst'
        have hs' : Inv s' := by
          have := inv_step cfg s e h
          rw [hstep] at this
          exact this
        exact ih s' hs' st hst'
      | fatal s' c =>
        rw [hstep] at hst'
        have hs' : Inv s' := by
          have := inv_step cfg s e h
          rw [hstep] at this
          exact this
        simp at hst'
        rcases hst' with rfl | rfl
        · exact hs'
        · exact inv_finally s' hs'

theorem live_length_le_one (s : LoopState) (h : Inv s) : s.live.length ≤ 1 := by
  rw [h]
  cases s.recording <;> simp

/-- On a trigger key-up with an active recording, the loop body terminates
the process, waits with no timeout, runs the pipeline and clears the slot. -/
theorem step_keyUp_eq (cfg : Config) (s : LoopState) (e : Event) (p : Nat)
    (he : e.etype = EvType.key) (hks : e.keystate = 0) (hkc : e.keycode = cfg.trigger)
    (hr : s.recording = some p) :
    step cfg s e = StepResult.cont
      { s with recording := none,
               live := s.live.erase p,
               trace := s.trace ++
                 [Action.terminate p, Action.wait p none,
                  Action.pipelineRun (transcribe_and_type cfg e.tt).raised],
               typed := s.typed ++ (transcribe_and_type cfg e.tt).typed } := by
  unfold step
  rw [if_neg (by simp [he]), if_neg (by omega), if_neg (by simp [hkc]),
      if_neg (by rw [hks]; intro hx; exact absurd hx.1 (by omega)), if_pos hks, hr]

/-- On a trigger key-down with no active recording and a failing spawn, the
loop body logs and raises SystemExit 1. -/
theorem step_keyDown_fail (cfg : Config) (s : LoopState) (e : Event)
    (he : e.etype = EvType.key) (hks : e.keystate = 1) (hkc : e.keycode = cfg.trigger)
    (hr : s.recording = none) (hsp : e.spawnPid = none) :
    step cfg s e = StepResult.fatal { s with trace := s.trace ++ [Action.logSpawnFail] } 1 := by
  unfold step
  rw [if_neg (by simp [he]), if_neg (by omega), if_neg (by simp [hkc]),
      if_pos ⟨hks, hr⟩, hsp]

/-- On a trigger key-down with no active recording and a successful spawn,
the loop body records the new process and its spawn action. -/
theorem step_keyDown_ok (cfg : Config) (s : LoopState) (e : Event) (pid : Nat)
    (he : e.etype = EvType.key) (hks : e.keystate = 1) (hkc : e.keycode = cfg.trigger)
    (hr : s.recording = none) (hsp : e.spawnPid = some pid) :
    step cfg s e = StepResult.cont
      { s with recording := some pid,
               live := s.live ++ [pid],
               trace := s.trace ++ [Action.spawn pid (arecordArgv cfg)],
               spawns := s.spawns + 1 } := by
  unfold step
  rw [if_neg (by simp [he]), if_neg (by omega), if_neg (by simp [hkc]),
      if_pos ⟨hks, hr⟩, hsp]

/-- The only fatal outcome of the loop body is the failed spawn on a trigger
key-down; the exit code is 1 and nothing was recorded. -/
theorem step_fatal_inversion (cfg : Config) (s : LoopState) (e : Event) (s' : LoopState)
    (c : Nat) (h : step cfg s e = StepResult.fatal s' c) :
    e.etype = EvType.key ∧ e.keystate = 1 ∧ e.keycode = cfg.trigger ∧
      s.recording = none ∧ e.spawnPid = none ∧ c = 1 ∧ s'.recording = s.recording := by
  unfold step at h
  split_ifs at h with h1 h2 h3 h4 h5
  · cases hsp : e.spawnPid with
    | some pid => rw [hsp] at h; exact absurd h (by simp)
    | none =>
      rw [hsp] at h
      refine ⟨by simpa using h1, h4.1, by simpa using h3, h4.2, rfl, ?_, ?_⟩
      · cases h; rfl
      · cases h; rfl
  · cases hr : s.recording with
    | some p => rw [hr] at h; exact absurd h (by simp)
    | none => rw [hr] at h; exact absurd h (by simp)

theorem runAux_fatal (cfg : Config) :
    ∀ (evs : List Event) (s : LoopState) (s' : LoopState) (c : Nat),
      runAux cfg s evs = ⟨s', some c⟩ →
      ∃ e ∈ evs, e.etype = EvType.key ∧ e.keystate = 1 ∧ e.keycode = cfg.trigger ∧
        e.spawnPid = none ∧ c = 1 := by
  intro evs
  induction evs with
  | nil =>
    intro s s' c h
    exact absurd (congrArg RunResult.exitCode h) (by simp [runAux])
  | cons e rest ih =>
    intro s s' c h
    have hrepr : runAux cfg s (e :: rest) =
        (match step cfg s e with
         | StepResult.cont s1 => runAux cfg s1 rest
         | StepResult.fatal s1 c1 => ⟨finallyStop s1, some c1⟩) := rfl
    rw [hrepr] at h
    cases hstep : step cfg s e with
    | cont s1 =>
      rw [hstep] at h
      obtain ⟨e', he', hprops⟩ := ih s1 s' c h
      exact ⟨e', List.mem_cons_of_mem e he', hprops⟩
    | fatal s1 c1 =>
      rw [hstep] at h
      obtain ⟨h1, h2, h3, _, h5, hc, _⟩ := step_fatal_inversion cfg s e s1 c1 hstep
      have hcc : c1 = c := by
        have := congrArg RunResult.exitCode h
        simpa using this
      exact ⟨e, List.mem_cons_self e rest, h1, h2, h3, h5, by omega⟩

/-- Well-formedness of one emitted action: the loop never force-kills, every
wait is either the untimed key-up wait or the one second shutdown wait, and
every spawn uses the fixed arecord argument vector. -/
def ActOk (cfg : Config) (a : Action) : Prop :=
  (∀ q, a ≠ Action.kill q) ∧
  (∀ q t, a = Action.wait q t → t = none ∨ t = some 1000) ∧
  (∀ q argv, a = Action.spawn q argv → argv = arecordArgv cfg)

theorem actOk_step (cfg : Config) (s : LoopState) (e : Event)
    (h : ∀ a ∈ s.trace, ActOk cfg a) :
    ∀ a ∈ (stepState (step cfg s e)).trace, ActOk cfg a := by
  unfold step
  split_ifs with h1 h2 h3 h4 h5
  · exact h
  · exact h
  · exact h
  · cases hsp : e.spawnPid with
    | some pid =>
      intro a ha
      simp only [stepState, List.mem_append, List.mem_singleton] at ha
      rcases ha with ha | rfl
      · exact h a ha
      · exact ⟨by simp, by simp, by intro q argv hq; cases hq; rfl⟩
    | none =>
      intro a ha
      simp only [stepState, List.mem_append, List.mem_singleton] at ha
      rcases ha with ha | rfl
      · exact h a ha
      · exact ⟨by simp, by simp, by simp⟩
  · cases hr : s.recording with
    | some p =>
      intro a ha
      simp only [stepState, List.mem_append] at ha
      rcases ha with ha | ha
      · exact h a ha
      · simp only [List.mem_cons, List.mem_singleton] at ha
        rcases ha with rfl | rfl | ha
        · exact ⟨by simp, by simp, by simp⟩
        · exact ⟨by simp, by intro q t hq; cases hq; exact Or.inl rfl, by simp⟩
        · rcases ha with rfl | hna
          · exact ⟨by simp, by simp, by simp⟩
          · exact absurd hna (List.not_mem_nil a)
    | none => exact h
  · exact h

theorem actOk_finally (cfg : Config) (s : LoopState)
    (h : ∀ a ∈ s.trace, ActOk cfg a) :
    ∀ a ∈ (finallyStop s).trace, ActOk cfg a := by
  unfold finallyStop
  cases hr : s.recording with
  | none => exact h
  | some p =>
    intro a ha
    simp only [List.mem_append, List.mem_cons, List.mem_singleton] at ha
    rcases ha with ha | rfl | rfl | hna
    · exact h a ha
    · exact ⟨by simp, by simp, by simp⟩
    · exact ⟨by simp, by intro q t hq; cases hq; exact Or.inr rfl, by simp⟩
    · exact absurd hna (List.not_mem_nil a)

theorem actOk_runAux (cfg : Config) :
    ∀ (evs : List Event) (s : LoopState), (∀ a ∈ s.trace, ActOk cfg a) →
      ∀ a ∈ (runAux cfg s evs).final.trace, ActOk cfg a := by
  intro evs
  induction evs with
  | nil => intro s h; exact actOk_finally cfg s h
  | cons e rest ih =>
    intro s h
    have hrepr : runAux cfg s (e :: rest) =
        (match step cfg s e with
         | StepResult.cont s1 => runAux cfg s1 rest
         | StepResult.fatal s1 c1 => ⟨finallyStop s1, some c1⟩) := rfl
    rw [hrepr]
    cases hstep : step cfg s e with
    | cont s1 =>
      have hs1 : ∀ a ∈ s1.trace, ActOk cfg a := by
        have := actOk_step cfg s e h
        rw [hstep] at this
        exact this
      exact ih s1 hs1
    | fatal s1 c1 =>
      have hs1 : ∀ a ∈ s1.trace, ActOk cfg a := by
        have := actOk_step cfg s e h
        rw [hstep] at this
        exact this
      exact actOk_finally cfg s1 hs1

theorem actOk_runLoop (cfg : Config) (evs : List Event) :
    ∀ a ∈ (runLoop cfg evs).final.trace, ActOk cfg a :=
  actOk_runAux cfg evs {} (by intro a ha; exact absurd ha (List.not_mem_nil a))

/-- A transcribe_and_type call on a successful transcription never raises. -/
theorem tt_ok_not_raised (cfg : Config) (env : TtEnv) (raw : String)
    (henv : env.transcription = Except.ok raw) :
    (transcribe_and_type cfg env).raised = false := by
  unfold transcribe_and_type
  rw [henv]
  dsimp only
  split_ifs <;> rfl

/-- A transcribe_and_type call from which an exception escapes made no
subprocess invocation and typed nothing. -/
theorem tt_raised_nothing (cfg : Config) (env : TtEnv)
    (h : (transcribe_and_type cfg env).raised = true) :
    (transcribe_and_type cfg env).typed = [] ∧ (transcribe_and_type cfg env).calls = [] := by
  cases henv : env.transcription with
  | error msg =>
    constructor <;> (unfold transcribe_and_type; rw [henv])
  | ok raw =>
    rw [tt_ok_not_raised cfg env raw henv] at h
    exact absurd h (by simp)

/-- With ydotool unresolvable or the socket missing, transcribe_and_type
makes no subprocess invocation. -/
theorem tt_calls_nil_of_not_ready (cfg : Config) (env : TtEnv)
    (hns : env.ydotoolFound = false ∨ env.socketExists = false) :
    (transcribe_and_type cfg env).calls = [] := by
  unfold transcribe_and_type
  cases henv : env.transcription with
  | error msg => rfl
  | ok raw =>
    dsimp only
    split_ifs with ht hf2 hs2 hr4
    · rfl
    · rfl
    · rfl
    · rcases hns with hf | hs
      · exact absurd hf hf2
      · exact absurd hs hs2
    · rcases hns with hf | hs
      · exact absurd hf hf2
      · exact absurd hs hs2

/-- Invocations of ydotool happen only when both preconditions hold. -/
theorem tt_calls_need_preconditions (cfg : Config) (env : TtEnv)
    (h : (transcribe_and_type cfg env).calls ≠ []) :
    env.ydotoolFound = true ∧ env.socketExists = true := by
  cases hfound : env.ydotoolFound with
  | false => exact absurd (tt_calls_nil_of_not_ready cfg env (Or.inl hfound)) h
  | true =>
    cases hsock : env.socketExists with
    | false => exact absurd (tt_calls_nil_of_not_ready cfg env (Or.inr hsock)) h
    | true => exact ⟨rfl, rfl⟩

/-- Branch of transcribe_and_type for whitespace-only recognised text. -/
theorem tt_empty_text (cfg : Config) (env : TtEnv) (raw : String)
    (henv : env.transcription = Except.ok raw) (hstrip : pyStrip raw = "") :
    transcribe_and_type cfg env = ⟨false, [TtLog.noText], [], []⟩ := by
  unfold transcribe_and_type
  rw [henv]
  dsimp only
  rw [if_pos hstrip]

/-- Branch of transcribe_and_type when ydotool is not resolvable. -/
theorem tt_no_ydotool (cfg : Config) (env : TtEnv) (raw : String)
    (henv : env.transcription = Except.ok raw) (hstrip : pyStrip raw ≠ "")
    (hf : env.ydotoolFound = false) :
    transcribe_and_type cfg env = ⟨false, [TtLog.recognized, TtLog.noYdotool], [], []⟩ := by
  unfold transcribe_and_type
  rw [henv]
  dsimp only
  rw [if_neg hstrip, if_pos hf]

/-- Branch of transcribe_and_type when the ydotool socket is missing. -/
theorem tt_socket_missing (cfg : Config) (env : TtEnv) (raw : String)
    (henv : env.transcription = Except.ok raw) (hstrip : pyStrip raw ≠ "")
    (hf : env.ydotoolFound = true) (hs : env.socketExists = false) :
    transcribe_and_type cfg env = ⟨false, [TtLog.recognized, TtLog.socketMissing], [], []⟩ := by
  unfold transcribe_and_type
  rw [henv]
  dsimp only
  rw [if_neg hstrip, if_neg (by rw [hf]; simp), if_pos hs]

/-- Branch of transcribe_and_type with both preconditions satisfied: a
single ydotool invocation carrying the configured key delay and the stripped
text followed by one space. -/
theorem tt_ready_call (cfg : Config) (env : TtEnv) (raw : String)
    (henv : env.transcription = Except.ok raw) (hstrip : pyStrip raw ≠ "")
    (hf : env.ydotoolFound = true) (hs : env.socketExists = true) :
    (transcribe_and_type cfg env).calls =
      [["ydotool", "type", "--key-delay", toString cfg.keyDelay, pyStrip raw ++ " "]] ∧
    (env.runOk = true → (transcribe_and_type cfg env).typed = [pyStrip raw ++ " "]) ∧
    (env.runOk = false → (transcribe_and_type cfg env).typed = []) := by
  unfold transcribe_and_type
  rw [henv]
  dsimp only
  rw [if_neg hstrip, if_neg (by rw [hf]; simp), if_neg (by rw [hs]; simp)]
  cases hr : env.runOk with
  | true => exact ⟨rfl, fun _ => rfl, fun hc => absurd hc (by simp)⟩
  | false => exact ⟨rfl, fun hc => absurd hc (by simp), fun _ => rfl⟩

/-- With ydotool resolvable and the socket present, the speech_to_text
typing loop issues exactly one invocation per segment, in order. -/
theorem stt_typeLoop_ready :
    ∀ segs : List String, stt_typeLoop true true segs = (segs.map stt_type_text_argv, none) := by
  intro segs
  induction segs with
  | nil => rfl
  | cons t rest ih =>
    unfold stt_typeLoop
    rw [if_neg (by simp), if_neg (by simp), ih]
    rfl

/-- With ydotool unresolvable or the socket missing, the speech_to_text
typing loop makes no invocation at all. -/
theorem stt_typeLoop_not_ready (found sockEx : Bool)
    (hns : found = false ∨ sockEx = false) :
    ∀ segs : List String, (stt_typeLoop found sockEx segs).1 = [] ∧
      (segs ≠ [] → (stt_typeLoop found sockEx segs).2 = some 1) := by
  intro segs
  cases segs with
  | nil => exact ⟨rfl, fun hc => absurd rfl hc⟩
  | cons t rest =>
    unfold stt_typeLoop
    rcases hns with hf | hs
    · rw [if_pos hf]
      exact ⟨rfl, fun _ => rfl⟩
    · cases hfound : found with
      | false => rw [if_pos rfl]; exact ⟨rfl, fun _ => rfl⟩
      | true =>
        rw [if_neg (by simp), if_pos hs]
        exact ⟨rfl, fun _ => rfl⟩

/-- Whitespace-only raw segments produce no transcript segments. -/
theorem stt_transcribe_nil_of_ws (rawSegs : List String)
    (h : ∀ r ∈ rawSegs, wsOnlyB r = true) : stt_transcribe rawSegs = [] := by
  induction rawSegs with
  | nil => rfl
  | cons r rest ih =>
    unfold stt_transcribe
    have hr : pyStrip r = "" := pyStrip_eq_empty_of_wsOnly r (h r (List.mem_cons_self r rest))
    rw [List.filterMap_cons]
    dsimp only
    rw [if_pos hr]
    exact ih (fun r' hr' => h r' (List.mem_cons_of_mem r hr'))

/-- Every emitted transcript segment is stripped and non-empty. -/
theorem stt_transcribe_mem (rawSegs : List String) (s : String)
    (h : s ∈ stt_transcribe rawSegs) : isStripped s.data = true ∧ s ≠ "" := by
  unfold stt_transcribe at h
  obtain ⟨r, _, hr⟩ := List.mem_filterMap.mp h
  dsimp only at hr
  by_cases he : pyStrip r = ""
  · rw [if_pos he] at hr
    exact absurd hr (by simp)
  · rw [if_neg he] at hr
    have hs : s = pyStrip r := by
      have := Option.some.inj hr
      exact this.symm
    rw [hs]
    exact ⟨pyStrip_isStripped r, he⟩

/-- A loop-body step on an event that is not a trigger key-down never
leaves the loop. -/
theorem step_cont_of_not_down (cfg : Config) (s : LoopState) (e : Event)
    (h : e.keystate ≠ 1) : ∃ s', step cfg s e = StepResult.cont s' := by
  cases hstep : step cfg s e with
  | cont s' => exact ⟨s', rfl⟩
  | fatal s' c =>
    obtain ⟨_, hks, _⟩ := step_fatal_inversion cfg s e s' c hstep
    exact absurd hks h

/-- On a list sorted by event number, find? returns a number-minimal
element among those satisfying the predicate. -/
theorem find?_min_of_sorted (p : RawDevice → Bool) :
    ∀ l : List RawDevice, List.Sorted devLe l → ∀ d, l.find? p = some d →
      ∀ y ∈ l, p y = true → d.num ≤ y.num := by
  intro l
  induction l with
  | nil => intro _ d h; exact absurd h (by simp)
  | cons a t ih =>
    intro hs d hfind y hy hpy
    rw [List.sorted_cons] at hs
    by_cases hpa : p a = true
    · rw [List.find?_cons_of_pos t hpa] at hfind
      have had : a = d := Option.some.inj hfind
      rcases List.mem_cons.mp hy with rfl | hy'
      · rw [← had]
      · rw [← had]
        exact hs.1 y hy'
    · rw [List.find?_cons_of_neg t (by simpa using hpa)] at hfind
      rcases List.mem_cons.mp hy with rfl | hy'
      · exact absurd hpy hpa
      · exact ih hs.2 d hfind y hy' hpy

/-- Test a trace action for being a force-kill. -/
def isKill : Action → Bool
  | Action.kill _ => true
  | _ => false

/-- Default configuration used in concrete instances. -/
def cfgW : Config := {}

/-- A trigger key-down whose spawn succeeds with pid 5. -/
def evDownOk : Event := { keystate := 1, spawnPid := some 5 }

/-- A trigger key-down whose spawn fails (arecord missing). -/
def evDownFail : Event := { keystate := 1, spawnPid := none }

/-- A trigger key-up. -/
def evUp : Event := { keystate := 0 }

/-- A trigger key-down with pid 7, for the stop-trace instance. -/
def evDown7 : Event := { keystate := 1, spawnPid := some 7 }

/-- A loop state with an active recording of pid 5. -/
def stActive : LoopState := { recording := some 5, live := [5] }

/-- Claim C1: at every instant during the event loop at most one
audio-capture process is active, and a trigger key-down arriving while a
session is already active spawns no new capture process and causes no state
change at all. -/
theorem C1_single_session (cfg : Config) (evs : List Event) :
    (∀ st ∈ statesAux cfg {} evs, st.live.length ≤ 1) ∧
    (∀ (s : LoopState) (e : Event), s.recording.isSome = true → e.keystate = 1 →
      step cfg s e = StepResult.cont s) := by
  constructor
  · intro st hst
    exact live_length_le_one st (inv_statesAux cfg evs {} rfl st hst)
  · intro s e hrec hks
    unfold step
    split_ifs with h1 h2 h3 h4 h5
    · rfl
    · rfl
    · rfl
    · exfalso
      rw [h4.2] at hrec
      simp at hrec
    · exfalso
      omega
    · rfl

/-- Concrete instance of C1: a double key-down followed by a key-up keeps
at most one live process, and a key-down in the active state is a no-op. -/
theorem C1_single_session_witness :
    (∀ st ∈ statesAux cfgW {} [evDownOk, evDownOk, evUp], st.live.length ≤ 1) ∧
    step cfgW stActive evDownOk = StepResult.cont stActive :=
  ⟨(C1_single_session cfgW [evDownOk, evDownOk, evUp]).1,
   (C1_single_session cfgW [evDownOk, evDownOk, evUp]).2 stActive evDownOk rfl rfl⟩

/-- Claim C2 as stated is false: after a failed spawn the listener does not
keep running — it exits with status 1 and the following key-down is never
processed (no spawn happens for it). -/
theorem C2_spawn_failure_counterexample :
    (runLoop cfgW [evDownFail, evDownOk]).exitCode = some 1 ∧
    (runLoop cfgW [evDownFail, evDownOk]).final.spawns = 0 ∧
    (runLoop cfgW [evDownFail, evDownOk]).final.recording = none := by
  refine ⟨rfl, rfl, rfl⟩

/-- Claim C2 amended: a failed spawn on a trigger key-down is logged and
leaves no active session — the orchestrator never reaches Recording — but it
is fatal: the listener raises SystemExit 1 and processes no further
events. -/
theorem C2_spawn_failure_amended (cfg : Config) (s : LoopState) (e : Event) (rest : List Event)
    (he : e.etype = EvType.key) (hks : e.keystate = 1) (hkc : e.keycode = cfg.trigger)
    (hr : s.recording = none) (hsp : e.spawnPid = none) :
    step cfg s e = StepResult.fatal { s with trace := s.trace ++ [Action.logSpawnFail] } 1 ∧
    runAux cfg s (e :: rest) =
      ⟨{ s with trace := s.trace ++ [Action.logSpawnFail] }, some 1⟩ := by
  have hstep := step_keyDown_fail cfg s e he hks hkc hr hsp
  refine ⟨hstep, ?_⟩
  have hrepr : runAux cfg s (e :: rest) =
      (match step cfg s e with
       | StepResult.cont s1 => runAux cfg s1 rest
       | StepResult.fatal s1 c1 => ⟨finallyStop s1, some c1⟩) := rfl
  rw [hrepr, hstep]
  dsimp only
  unfold finallyStop
  simp only [hr]

/-- Concrete instance of C2 amended: from the idle state a failing key-down
ends the run with exit code 1 and only the failure log in the trace. -/
theorem C2_spawn_failure_amended_witness :
    step cfgW {} evDownFail = StepResult.fatal { trace := [Action.logSpawnFail] } 1 ∧
    runAux cfgW {} [evDownFail, evDownOk] = ⟨{ trace := [Action.logSpawnFail] }, some 1⟩ :=
  C2_spawn_failure_amended cfgW {} evDownFail [evDownOk] rfl rfl rfl rfl rfl

/-- Claim C3 as stated is false: the key-up stop performs a wait with no
timeout cap, and no force-kill is ever issued anywhere in the run. -/
theorem C3_bounded_stop_counterexample :
    Action.wait 7 none ∈ (runLoop cfgW [evDown7, evUp]).final.trace ∧
    (∀ a ∈ (runLoop cfgW [evDown7, evUp]).final.trace, isKill a = false) := by
  decide

/-- Claim C3 amended: stop does signal graceful termination, but the key-up
wait is unbounded (no timeout) and no force-kill exists; only the shutdown
path caps its wait, at 1000 ms, again without a kill. -/
theorem C3_stop_unbounded_amended (cfg : Config) (evs : List Event) :
    (∀ a ∈ (runLoop cfg evs).final.trace,
      (∀ q, a ≠ Action.kill q) ∧ (∀ q t, a = Action.wait q t → t = none ∨ t = some 1000)) ∧
    (∀ (s : LoopState) (e : Event) (p : Nat), e.etype = EvType.key → e.keystate = 0 →
      e.keycode = cfg.trigger → s.recording = some p →
      step cfg s e = StepResult.cont
        { s with recording := none,
                 live := s.live.erase p,
                 trace := s.trace ++
                   [Action.terminate p, Action.wait p none,
                    Action.pipelineRun (transcribe_and_type cfg e.tt).raised],
                 typed := s.typed ++ (transcribe_and_type cfg e.tt).typed }) ∧
    (∀ (s : LoopState) (p : Nat), s.recording = some p →
      finallyStop s = { s with recording := none,
                               live := s.live.erase p,
                               trace := s.trace ++
                                 [Action.terminate p, Action.wait p (some 1000)] }) := by
  refine ⟨?_, ?_, ?_⟩
  · intro a ha
    exact ⟨(actOk_runLoop cfg evs a ha).1, (actOk_runLoop cfg evs a ha).2.1⟩
  · intro s e p he hks hkc hr
    exact step_keyUp_eq cfg s e p he hks hkc hr
  · intro s p hr
    unfold finallyStop
    rw [hr]

/-- Concrete instance of C3 amended: one full press-release run has no kill
and only lawful waits, the key-up stop waits untimed, and the shutdown stop
of an active session waits 1000 ms. -/
theorem C3_stop_unbounded_amended_witness :
    (∀ a ∈ (runLoop cfgW [evDown7, evUp]).final.trace,
      (∀ q, a ≠ Action.kill q) ∧ (∀ q t, a = Action.wait q t → t = none ∨ t = some 1000)) ∧
    step cfgW stActive evUp = StepResult.cont
      { recording := none, live := [],
        trace := [Action.terminate 5, Action.wait 5 none, Action.pipelineRun false],
        typed := [] } ∧
    finallyStop stActive =
      { recording := none, live := [],
        trace := [Action.terminate 5, Action.wait 5 (some 1000)] } :=
  ⟨(C3_stop_unbounded_amended cfgW [evDown7, evUp]).1,
   (C3_stop_unbounded_amended cfgW [evDown7, evUp]).2.1 stActive evUp 5 rfl rfl rfl rfl,
   (C3_stop_unbounded_amended cfgW [evDown7, evUp]).2.2 stActive 5 rfl⟩

/-- Claim C4: every pipeline error after a key-up is caught and logged, the
session slot is cleared so the orchestrator is Idle again, nothing is typed
that round, and no pipeline error leaves the event loop — the only fatal
exit of the loop is the failed spawn. -/
theorem C4_pipeline_errors_contained (cfg : Config) (evs : List Event) :
    (∀ (s' : LoopState) (c : Nat), runLoop cfg evs = ⟨s', some c⟩ →
      ∃ e ∈ evs, e.etype = EvType.key ∧ e.keystate = 1 ∧ e.keycode = cfg.trigger ∧
        e.spawnPid = none ∧ c = 1) ∧
    (∀ (s : LoopState) (e : Event) (p : Nat), e.etype = EvType.key → e.keystate = 0 →
      e.keycode = cfg.trigger → s.recording = some p →
      ∃ s', step cfg s e = StepResult.cont s' ∧ s'.recording = none ∧
        Action.pipelineRun (transcribe_and_type cfg e.tt).raised ∈ s'.trace ∧
        ((transcribe_and_type cfg e.tt).raised = true → s'.typed = s.typed)) := by
  constructor
  · intro s' c h
    exact runAux_fatal cfg evs {} s' c h
  · intro s e p he hks hkc hr
    refine ⟨_, step_keyUp_eq cfg s e p he hks hkc hr, rfl, ?_, ?_⟩
    · apply List.mem_append_right
      simp
    · intro hraised
      have := (tt_raised_nothing cfg e.tt hraised).1
      dsimp only
      rw [this, List.append_nil]

/-- Concrete instance of C4: the only fatal run is a spawn failure, and a
key-up from the active state lands in Idle with the pipeline outcome
logged. -/
theorem C4_pipeline_errors_contained_witness :
    (∃ e ∈ [evDownFail], e.etype = EvType.key ∧ e.keystate = 1 ∧
      e.keycode = cfgW.trigger ∧ e.spawnPid = none ∧ 1 = 1) ∧
    (∃ s', step cfgW stActive evUp = StepResult.cont s' ∧ s'.recording = none ∧
      Action.pipelineRun (transcribe_and_type cfgW evUp.tt).raised ∈ s'.trace ∧
      ((transcribe_and_type cfgW evUp.tt).raised = true → s'.typed = stActive.typed)) :=
  ⟨(C4_pipeline_errors_contained cfgW [evDownFail]).1 { trace := [Action.logSpawnFail] } 1 rfl,
   (C4_pipeline_errors_contained cfgW [evDownFail]).2 stActive evUp 5 rfl rfl rfl rfl⟩

/-- Claim C5 as stated is false: an artifact that exists but is empty is
handed to transcription — load_audio checks existence only, never size. -/
theorem C5_artifact_check_counterexample :
    (stt_main ⟨true, 0⟩ ["hi"] true true).transcriptionInvoked = true ∧
    (⟨true, 0⟩ : AudioFile).present = true ∧ (⟨true, 0⟩ : AudioFile).sizeBytes = 0 := by
  decide

/-- Claim C5 amended: before transcription the artifact is checked to exist
(exit 1 when missing) but not to be non-empty — an existing empty artifact
is transcribed; the artifact path is the single fixed configured path, used
by every capture spawn of a run. -/
theorem C5_artifact_check_amended (f : AudioFile) (rawSegs : List String)
    (found sockEx : Bool) (cfg : Config) (evs : List Event) :
    (f.present = false → stt_main f rawSegs found sockEx = ⟨false, [], [], some 1⟩) ∧
    (f.present = true → (stt_main f rawSegs found sockEx).transcriptionInvoked = true) ∧
    (∀ (p : Nat) (argv : List String),
      Action.spawn p argv ∈ (runLoop cfg evs).final.trace → argv = arecordArgv cfg) := by
  refine ⟨?_, ?_, ?_⟩
  · intro h
    unfold stt_main load_audio
    rw [h]
    rfl
  · intro h
    unfold stt_main load_audio
    rw [h]
    rfl
  · intro p argv hmem
    exact (actOk_runLoop cfg evs _ hmem).2.2 p argv rfl

/-- Concrete instance of C5 amended: a missing artifact exits 1 without
transcription, a present one is transcribed, and all spawns of a run write
to the configured path. -/
theorem C5_artifact_check_amended_witness :
    (stt_main ⟨false, 0⟩ ["x"] true true = ⟨false, [], [], some 1⟩) ∧
    ((stt_main ⟨true, 3⟩ ["x"] true true).transcriptionInvoked = true) ∧
    (∀ (p : Nat) (argv : List String),
      Action.spawn p argv ∈ (runLoop cfgW [evDown7, evUp]).final.trace →
        argv = arecordArgv cfgW) :=
  ⟨(C5_artifact_check_amended ⟨false, 0⟩ ["x"] true true cfgW [evDown7, evUp]).1 rfl,
   (C5_artifact_check_amended ⟨true, 3⟩ ["x"] true true cfgW [evDown7, evUp]).2.1 rfl,
   (C5_artifact_check_amended ⟨true, 3⟩ ["x"] true true cfgW [evDown7, evUp]).2.2⟩

/-- Claim C6: device resolution tries, in this exact order over the
ascending enumeration with unopenable devices skipped: first capability
match on the trigger keycode, then first keyboard-like name, then the
configured static path when it exists, else failure with exit code 1. -/
theorem C6_device_resolution_order (table : String → Option Nat) (trigger : String)
    (code : Nat) (devs : List RawDevice) (cfgPath : String) (cfgExists : Bool)
    (htab : table trigger = some code) :
    List.Sorted devLe (List.insertionSort devLe devs) ∧
    (List.insertionSort devLe devs).Perm devs ∧
    (∀ d, (List.insertionSort devLe devs).find? (capMatch code) = some d →
      resolveDevice table trigger devs cfgPath cfgExists = Except.ok (devPathOf d) ∧
      capMatch code d = true ∧ ∀ y ∈ devs, capMatch code y = true → d.num ≤ y.num) ∧
    ((List.insertionSort devLe devs).find? (capMatch code) = none →
      (∀ y ∈ devs, capMatch code y ≠ true) ∧
      (∀ d, (List.insertionSort devLe devs).find? nameTier = some d →
        resolveDevice table trigger devs cfgPath cfgExists = Except.ok (devPathOf d) ∧
        nameTier d = true ∧ ∀ y ∈ devs, nameTier y = true → d.num ≤ y.num)) ∧
    ((List.insertionSort devLe devs).find? (capMatch code) = none →
      (List.insertionSort devLe devs).find? nameTier = none →
      (∀ y ∈ devs, capMatch code y ≠ true ∧ nameTier y ≠ true) ∧
      (cfgExists = true →
        resolveDevice table trigger devs cfgPath cfgExists = Except.ok cfgPath) ∧
      (cfgExists = false →
        resolveDevice table trigger devs cfgPath cfgExists = Except.error 1)) := by
  have hsort : List.Sorted devLe (List.insertionSort devLe devs) :=
    List.sorted_insertionSort devLe devs
  have hperm : (List.insertionSort devLe devs).Perm devs :=
    List.perm_insertionSort devLe devs
  refine ⟨hsort, hperm, ?_, ?_, ?_⟩
  · intro d hfind
    have hres : resolveDevice table trigger devs cfgPath cfgExists = Except.ok (devPathOf d) := by
      unfold resolveDevice find_keyboard_device
      rw [htab]
      dsimp only
      rw [hfind]
    refine ⟨hres, List.find?_some hfind, ?_⟩
    intro y hy hcy
    exact find?_min_of_sorted (capMatch code) _ hsort d hfind y (hperm.mem_iff.mpr hy) hcy
  · intro hnone
    constructor
    · intro y hy
      have := List.find?_eq_none.mp hnone y (hperm.mem_iff.mpr hy)
      simpa using this
    · intro d hfind
      have hres : resolveDevice table trigger devs cfgPath cfgExists =
          Except.ok (devPathOf d) := by
        unfold resolveDevice find_keyboard_device
        rw [htab]
        dsimp only
        rw [hnone, hfind]
      refine ⟨hres, List.find?_some hfind, ?_⟩
      intro y hy hny
      exact find?_min_of_sorted nameTier _ hsort d hfind y (hperm.mem_iff.mpr hy) hny
  · intro hc hn
    refine ⟨?_, ?_, ?_⟩
    · intro y hy
      refine ⟨?_, ?_⟩
      · have := List.find?_eq_none.mp hc y (hperm.mem_iff.mpr hy)
        simpa using this
      · have := List.find?_eq_none.mp hn y (hperm.mem_iff.mpr hy)
        simpa using this
    · intro hex
      unfold resolveDevice find_keyboard_device
      rw [htab]
      dsimp only
      rw [hc, hn]
      dsimp only
      rw [if_pos hex]
    · intro hex
      unfold resolveDevice find_keyboard_device
      rw [htab]
      dsimp only
      rw [hc, hn]
      dsimp only
      rw [if_neg (by rw [hex]; simp)]

/-- Keycode table used in the concrete resolver instance. -/
def tblW : String → Option Nat := fun s => if s = "KEY_RIGHTCTRL" then some 97 else none

/-- Device without the trigger key and without a keyboard-like name. -/
def devW3 : RawDevice := ⟨3, true, true, [30], "Foo"⟩

/-- Device without EV_KEY capabilities but named like a keyboard. -/
def devW7 : RawDevice := ⟨7, true, false, [], "USB Keyboard"⟩

/-- Concrete instance of C6 (the name-fallback scenario): with no capability
match, resolution picks the first keyboard-named device. -/
theorem C6_device_resolution_order_witness :
    resolveDevice tblW "KEY_RIGHTCTRL" [devW3, devW7] "/dev/input/event4" false =
      Except.ok (devPathOf devW7) ∧
    nameTier devW7 = true ∧
    (∀ y ∈ [devW3, devW7], nameTier y = true → devW7.num ≤ y.num) :=
  ((C6_device_resolution_order tblW "KEY_RIGHTCTRL" 97 [devW3, devW7]
      "/dev/input/event4" false rfl).2.2.2.1 (by decide)).2 devW7 (by decide)

/-- Claim C7: injection requires ydotool to be resolvable and the socket to
exist; when either precondition fails the specific error is reported and no
injection call is made, and the event loop keeps running on key-up. -/
theorem C7_typing_preconditions (cfg : Config) :
    (∀ (env : TtEnv) (raw : String), env.transcription = Except.ok raw →
      ((transcribe_and_type cfg env).calls ≠ [] →
        env.ydotoolFound = true ∧ env.socketExists = true) ∧
      (env.ydotoolFound = false → (transcribe_and_type cfg env).calls = [] ∧
        (pyStrip raw ≠ "" → transcribe_and_type cfg env =
          ⟨false, [TtLog.recognized, TtLog.noYdotool], [], []⟩)) ∧
      (env.ydotoolFound = true → env.socketExists = false →
        (transcribe_and_type cfg env).calls = [] ∧
        (pyStrip raw ≠ "" → transcribe_and_type cfg env =
          ⟨false, [TtLog.recognized, TtLog.socketMissing], [], []⟩))) ∧
    (∀ found sockEx : Bool, found = false ∨ sockEx = false →
      ∀ segs : List String, (stt_typeLoop found sockEx segs).1 = []) ∧
    (∀ (s : LoopState) (e : Event), e.keystate ≠ 1 →
      ∃ s', step cfg s e = StepResult.cont s') := by
  refine ⟨?_, ?_, ?_⟩
  · intro env raw henv
    refine ⟨tt_calls_need_preconditions cfg env, ?_, ?_⟩
    · intro hf
      exact ⟨tt_calls_nil_of_not_ready cfg env (Or.inl hf),
             fun hstrip => tt_no_ydotool cfg env raw henv hstrip hf⟩
    · intro hf hs
      exact ⟨tt_calls_nil_of_not_ready cfg env (Or.inr hs),
             fun hstrip => tt_socket_missing cfg env raw henv hstrip hf hs⟩
  · intro found sockEx hns segs
    exact (stt_typeLoop_not_ready found sockEx hns segs).1
  · intro s e h
    exact step_cont_of_not_down cfg s e h

/-- Environment with ydotool unresolvable, for the concrete C7 instance. -/
def envNoY : TtEnv := { transcription := Except.ok "hi", ydotoolFound := false }

/-- Concrete instance of C7: with ydotool missing no call is made and the
error is reported; stt types nothing without preconditions; a key-up never
ends the loop. -/
theorem C7_typing_preconditions_witness :
    (((transcribe_and_type cfgW envNoY).calls ≠ [] →
        envNoY.ydotoolFound = true ∧ envNoY.socketExists = true) ∧
      (envNoY.ydotoolFound = false → (transcribe_and_type cfgW envNoY).calls = [] ∧
        (pyStrip "hi" ≠ "" → transcribe_and_type cfgW envNoY =
          ⟨false, [TtLog.recognized, TtLog.noYdotool], [], []⟩)) ∧
      (envNoY.ydotoolFound = true → envNoY.socketExists = false →
        (transcribe_and_type cfgW envNoY).calls = [] ∧
        (pyStrip "hi" ≠ "" → transcribe_and_type cfgW envNoY =
          ⟨false, [TtLog.recognized, TtLog.socketMissing], [], []⟩))) ∧
    ((stt_typeLoop false true ["a"]).1 = []) ∧
    (∃ s', step cfgW stActive evUp = StepResult.cont s') :=
  ⟨(C7_typing_preconditions cfgW).1 envNoY "hi" rfl,
   (C7_typing_preconditions cfgW).2.1 false true (Or.inl rfl) ["a"],
   (C7_typing_preconditions cfgW).2.2 stActive evUp (by decide)⟩

/-- Claim C8 as stated is false: the speech_to_text typing path invokes
ydotool per segment with no key-delay argument at all. -/
theorem C8_typed_output_counterexample :
    stt_typeLoop true true ["hi"] = ([["ydotool", "type", "hi "]], none) ∧
    (∀ c ∈ (stt_typeLoop true true ["hi"]).1, ∀ a ∈ c, a ≠ "--key-delay") := by
  decide

/-- Claim C8 amended: typed output is the segments each with exactly one
trailing space, one invocation per non-empty segment in production order;
the key_listener path passes the configured key delay, while the
speech_to_text path passes no delay argument (three-word command). -/
theorem C8_typed_output_amended (cfg : Config) :
    (∀ (env : TtEnv) (raw : String), env.transcription = Except.ok raw → pyStrip raw ≠ "" →
      env.ydotoolFound = true → env.socketExists = true →
      (transcribe_and_type cfg env).calls =
        [["ydotool", "type", "--key-delay", toString cfg.keyDelay, pyStrip raw ++ " "]] ∧
      (env.runOk = true → (transcribe_and_type cfg env).typed = [pyStrip raw ++ " "])) ∧
    (∀ segs : List String, stt_typeLoop true true segs = (segs.map stt_type_text_argv, none)) ∧
    (∀ t : String, stt_type_text_argv t = ["ydotool", "type", t ++ " "]) := by
  refine ⟨?_, stt_typeLoop_ready, fun t => rfl⟩
  intro env raw henv hstrip hf hs
  exact ⟨(tt_ready_call cfg env raw henv hstrip hf hs).1,
         (tt_ready_call cfg env raw henv hstrip hf hs).2.1⟩

/-- Environment with a successful transcription, for concrete instances. -/
def envOk : TtEnv := { transcription := Except.ok " hi " }

/-- Concrete instance of C8 amended: the key_listener call carries the
delay and the stripped text plus one space; the stt loop is one plain
three-word call per segment. -/
theorem C8_typed_output_amended_witness :
    ((transcribe_and_type cfgW envOk).calls =
      [["ydotool", "type", "--key-delay", toString cfgW.keyDelay, pyStrip " hi " ++ " "]] ∧
     (envOk.runOk = true → (transcribe_and_type cfgW envOk).typed = [pyStrip " hi " ++ " "])) ∧
    stt_typeLoop true true ["a", "b"] = (["a", "b"].map stt_type_text_argv, none) ∧
    stt_type_text_argv "x" = ["ydotool", "type", "x "] :=
  ⟨(C8_typed_output_amended cfgW).1 envOk " hi " rfl (by decide) rfl rfl,
   (C8_typed_output_amended cfgW).2.1 ["a", "b"],
   (C8_typed_output_amended cfgW).2.2 "x"⟩

/-- Claim C9: whitespace-only transcription yields zero segments and zero
typing calls; every emitted segment is trimmed and non-empty; the
key_listener path types nothing on whitespace-only recognised text. -/
theorem C9_whitespace_only (rawSegs : List String) (cfg : Config) :
    ((∀ r ∈ rawSegs, wsOnlyB r = true) →
      stt_transcribe rawSegs = [] ∧
      ∀ found sockEx : Bool, stt_typeLoop found sockEx (stt_transcribe rawSegs) = ([], none)) ∧
    (∀ s ∈ stt_transcribe rawSegs, isStripped s.data = true ∧ s ≠ "") ∧
    (∀ (env : TtEnv) (raw : String), env.transcription = Except.ok raw → wsOnlyB raw = true →
      transcribe_and_type cfg env = ⟨false, [TtLog.noText], [], []⟩) := by
  refine ⟨?_, ?_, ?_⟩
  · intro hws
    have hnil := stt_transcribe_nil_of_ws rawSegs hws
    refine ⟨hnil, ?_⟩
    intro found sockEx
    rw [hnil]
    rfl
  · intro s hs
    exact stt_transcribe_mem rawSegs s hs
  · intro env raw henv hws
    exact tt_empty_text cfg env raw henv (pyStrip_eq_empty_of_wsOnly raw hws)

/-- Environment whose transcription is whitespace only. -/
def envWs : TtEnv := { transcription := Except.ok "   " }

/-- Concrete instance of C9: two whitespace segments produce nothing and no
typing; segments of a mixed list are stripped and non-empty; key_listener
logs no text and types nothing on a whitespace transcription. -/
theorem C9_whitespace_only_witness :
    (stt_transcribe ["  ", "\t"] = [] ∧
      ∀ found sockEx : Bool,
        stt_typeLoop found sockEx (stt_transcribe ["  ", "\t"]) = ([], none)) ∧
    (∀ s ∈ stt_transcribe ["  a ", "b"], isStripped s.data = true ∧ s ≠ "") ∧
    transcribe_and_type cfgW envWs = ⟨false, [TtLog.noText], [], []⟩ :=
  ⟨(C9_whitespace_only ["  ", "\t"] cfgW).1 (by decide),
   (C9_whitespace_only ["  a ", "b"] cfgW).2.1,
   (C9_whitespace_only [] cfgW).2.2 envWs "   " rfl (by decide)⟩

/-- Claim C10: run as a non-root user, main logs the error and exits with
status 1 right after logging setup, before resolving the user, building the
environment, loading the model, or opening any input device. -/
theorem C10_root_required (euid : Nat) (h : euid ≠ 0) :
    main_startup euid = ([StartupAction.setupLogging, StartupAction.logNotRoot], some 1) ∧
    StartupAction.resolveUser ∉ (main_startup euid).1 ∧
    StartupAction.buildEnv ∉ (main_startup euid).1 ∧
    StartupAction.loadModel ∉ (main_startup euid).1 ∧
    StartupAction.openDevice ∉ (main_startup euid).1 := by
  have he : main_startup euid =
      ([StartupAction.setupLogging, StartupAction.logNotRoot], some 1) := by
    unfold main_startup
    rw [if_pos h]
  rw [he]
  exact ⟨rfl, by decide, by decide, by decide, by decide⟩

/-- Concrete instance of C10 at uid 1000. -/
theorem C10_root_required_witness :
    main_startup 1000 = ([StartupAction.setupLogging, StartupAction.logNotRoot], some 1) ∧
    StartupAction.resolveUser ∉ (main_startup 1000).1 ∧
    StartupAction.buildEnv ∉ (main_startup 1000).1 ∧
    StartupAction.loadModel ∉ (main_startup 1000).1 ∧
    StartupAction.openDevice ∉ (main_startup 1000).1 :=
  C10_root_required 1000 (by decide)

end STT
